import Mathlib

/-!
Shallow embedding of the telemetry aggregation engine of the tracer
(src/tracer/src/main.rs): the raw event record and its decode, the
per-task statistics accumulator, the statistics store, the
target-resolution policy, and the session-loop exit discipline.

Modelling conventions:
* u64 values are Nat; additions that the Rust code performs on u64
  wrap explicitly at 2 ^ 64 (release-mode semantics).
* f64 sums of squares are carried along as exact rationals; no claim
  settled here depends on floating-point rounding.
* i32 identifiers (thread/process ids) are Int.
-/

namespace Tracer

/-- Modulus of u64 arithmetic. -/
def U64LIM : Nat := 2 ^ 64

/-- Largest u64 value, the initializer of every min field. -/
def U64MAX : Nat := U64LIM - 1

lemma u64lim_pos : 0 < U64LIM := by norm_num [U64LIM]

lemma one_lt_u64lim : 1 < U64LIM := by norm_num [U64LIM]

/-- Raw event record, matching the eBPF-side sleeptime_t struct
(struct Sleeptime in src/tracer/src/main.rs). -/
structure Sleeptime where
  tid : Int
  sleep_start : Nat
  sleep_end : Nat
  runtime_ns : Nat
  deriving Repr, DecidableEq

/-- Per-task statistics accumulator (struct TaskStats). -/
structure TaskStats where
  runtime_sum : Nat
  runtime_sum_sq : ℚ
  runtime_min : Nat
  runtime_max : Nat
  sleep_sum : Nat
  sleep_sum_sq : ℚ
  sleep_min : Nat
  sleep_max : Nat
  sleep_count : Nat
  last_sleep_end : Nat
  sleep_interval_sum : Nat
  sleep_interval_sum_sq : ℚ
  sleep_interval_min : Nat
  sleep_interval_max : Nat
  sleep_interval_count : Nat
  event_count : Nat
  deriving Repr, DecidableEq

/-- TaskStats::new: sums and counts zero, min fields at u64::MAX,
max fields at zero. -/
def TaskStats.new : TaskStats where
  runtime_sum := 0
  runtime_sum_sq := 0
  runtime_min := U64MAX
  runtime_max := 0
  sleep_sum := 0
  sleep_sum_sq := 0
  sleep_min := U64MAX
  sleep_max := 0
  sleep_count := 0
  last_sleep_end := 0
  sleep_interval_sum := 0
  sleep_interval_sum_sq := 0
  sleep_interval_min := U64MAX
  sleep_interval_max := 0
  sleep_interval_count := 0
  event_count := 0

/-- TaskStats::update: unconditional runtime accumulation, sleep
accumulation when the sleep duration is positive, and a sleep-interval
sample when additionally a previous sleep end was recorded and the new
sleep end is strictly later. -/
def TaskStats.update (s : TaskStats) (runtime_ns sleep_ns sleep_end : Nat) : TaskStats :=
  let s1 : TaskStats := { s with
    event_count := (s.event_count + 1) % U64LIM
    runtime_sum := (s.runtime_sum + runtime_ns) % U64LIM
    runtime_sum_sq := s.runtime_sum_sq + (runtime_ns : ℚ) * (runtime_ns : ℚ)
    runtime_min := min s.runtime_min runtime_ns
    runtime_max := max s.runtime_max runtime_ns }
  if 0 < sleep_ns then
    let s2 : TaskStats := { s1 with
      sleep_count := (s1.sleep_count + 1) % U64LIM
      sleep_sum := (s1.sleep_sum + sleep_ns) % U64LIM
      sleep_sum_sq := s1.sleep_sum_sq + (sleep_ns : ℚ) * (sleep_ns : ℚ)
      sleep_min := min s1.sleep_min sleep_ns
      sleep_max := max s1.sleep_max sleep_ns }
    let s3 : TaskStats :=
      if 0 < s2.last_sleep_end ∧ s2.last_sleep_end < sleep_end then
        let interval := sleep_end - s2.last_sleep_end
        { s2 with
          sleep_interval_count := (s2.sleep_interval_count + 1) % U64LIM
          sleep_interval_sum := (s2.sleep_interval_sum + interval) % U64LIM
          sleep_interval_sum_sq :=
            s2.sleep_interval_sum_sq + (interval : ℚ) * (interval : ℚ)
          sleep_interval_min := min s2.sleep_interval_min interval
          sleep_interval_max := max s2.sleep_interval_max interval }
      else s2
    { s3 with last_sleep_end := sleep_end }
  else s1

/-- Sleep duration computed by process_event from a raw record. -/
def sleepDur (e : Sleeptime) : Nat :=
  if e.sleep_end > e.sleep_start then e.sleep_end - e.sleep_start else 0

/-- One observe call on a single accumulator, as process_event performs
it after decoding: the sleep duration is derived from the record. -/
def TaskStats.observe (s : TaskStats) (e : Sleeptime) : TaskStats :=
  s.update e.runtime_ns (sleepDur e) e.sleep_end

/-- Sequential observe calls on a single accumulator. -/
def observeAll : TaskStats → List Sleeptime → TaskStats
  | s, [] => s
  | s, e :: es => observeAll (s.observe e) es

lemma observeAll_nil (s : TaskStats) : observeAll s [] = s := rfl

lemma observeAll_cons (s : TaskStats) (e : Sleeptime) (es : List Sleeptime) :
    observeAll s (e :: es) = observeAll (s.observe e) es := rfl

/-! Field-level characterization of one update call. -/

lemma update_event_count (s : TaskStats) (r d se : Nat) :
    (s.update r d se).event_count = (s.event_count + 1) % U64LIM := by
  simp only [TaskStats.update]
  split
  · split <;> rfl
  · rfl

lemma update_runtime_min (s : TaskStats) (r d se : Nat) :
    (s.update r d se).runtime_min = min s.runtime_min r := by
  simp only [TaskStats.update]
  split
  · split <;> rfl
  · rfl

lemma update_runtime_max (s : TaskStats) (r d se : Nat) :
    (s.update r d se).runtime_max = max s.runtime_max r := by
  simp only [TaskStats.update]
  split
  · split <;> rfl
  · rfl

lemma update_sleep_count (s : TaskStats) (r d se : Nat) :
    (s.update r d se).sleep_count =
      if 0 < d then (s.sleep_count + 1) % U64LIM else s.sleep_count := by
  simp only [TaskStats.update]
  split <;> rename_i h
  · simp only [if_pos h]
    split <;> rfl
  · simp only [if_neg h]

lemma update_sleep_min (s : TaskStats) (r d se : Nat) :
    (s.update r d se).sleep_min =
      if 0 < d then min s.sleep_min d else s.sleep_min := by
  simp only [TaskStats.update]
  split <;> rename_i h
  · simp only [if_pos h]
    split <;> rfl
  · simp only [if_neg h]

lemma update_sleep_max (s : TaskStats) (r d se : Nat) :
    (s.update r d se).sleep_max =
      if 0 < d then max s.sleep_max d else s.sleep_max := by
  simp only [TaskStats.update]
  split <;> rename_i h
  · simp only [if_pos h]
    split <;> rfl
  · simp only [if_neg h]

lemma update_last_sleep_end (s : TaskStats) (r d se : Nat) :
    (s.update r d se).last_sleep_end =
      if 0 < d then se else s.last_sleep_end := by
  simp only [TaskStats.update]
  split <;> rename_i h
  · simp only [if_pos h]
  · simp only [if_neg h]

/-- Trigger condition of the sleep-interval accumulator for one call. -/
def intervalTrigger (s : TaskStats) (d se : Nat) : Prop :=
  0 < d ∧ 0 < s.last_sleep_end ∧ s.last_sleep_end < se

instance (s : TaskStats) (d se : Nat) : Decidable (intervalTrigger s d se) := by
  unfold intervalTrigger
  infer_instance

lemma update_interval_count (s : TaskStats) (r d se : Nat) :
    (s.update r d se).sleep_interval_count =
      if intervalTrigger s d se then (s.sleep_interval_count + 1) % U64LIM
      else s.sleep_interval_count := by
  simp only [TaskStats.update, intervalTrigger]
  split <;> rename_i h
  · split <;> rename_i h2
    · rw [if_pos ⟨h, h2⟩]
    · rw [if_neg (by tauto)]
  · rw [if_neg (by tauto)]

lemma update_interval_sum (s : TaskStats) (r d se : Nat) :
    (s.update r d se).sleep_interval_sum =
      if intervalTrigger s d se then
        (s.sleep_interval_sum + (se - s.last_sleep_end)) % U64LIM
      else s.sleep_interval_sum := by
  simp only [TaskStats.update, intervalTrigger]
  split <;> rename_i h
  · split <;> rename_i h2
    · rw [if_pos ⟨h, h2⟩]
    · rw [if_neg (by tauto)]
  · rw [if_neg (by tauto)]

lemma update_interval_min (s : TaskStats) (r d se : Nat) :
    (s.update r d se).sleep_interval_min =
      if intervalTrigger s d se then
        min s.sleep_interval_min (se - s.last_sleep_end)
      else s.sleep_interval_min := by
  simp only [TaskStats.update, intervalTrigger]
  split <;> rename_i h
  · split <;> rename_i h2
    · rw [if_pos ⟨h, h2⟩]
    · rw [if_neg (by tauto)]
  · rw [if_neg (by tauto)]

lemma update_interval_max (s : TaskStats) (r d se : Nat) :
    (s.update r d se).sleep_interval_max =
      if intervalTrigger s d se then
        max s.sleep_interval_max (se - s.last_sleep_end)
      else s.sleep_interval_max := by
  simp only [TaskStats.update, intervalTrigger]
  split <;> rename_i h
  · split <;> rename_i h2
    · rw [if_pos ⟨h, h2⟩]
    · rw [if_neg (by tauto)]
  · rw [if_neg (by tauto)]

lemma sleepDur_pos_iff (e : Sleeptime) :
    0 < sleepDur e ↔ e.sleep_start < e.sleep_end := by
  unfold sleepDur
  split <;> omega

/-! Counting specification for the three accumulators (claim C1). -/

/-- Number of calls in a sequence whose record shows an actual sleep,
that is sleep_end strictly greater than sleep_start. -/
def countSleep : List Sleeptime → Nat
  | [] => 0
  | e :: es => (if e.sleep_start < e.sleep_end then 1 else 0) + countSleep es

/-- Number of calls that record a sleep-interval sample, threading the
last_sleep_end value visible at each call. -/
def intervalCountFrom (last : Nat) : List Sleeptime → Nat
  | [] => 0
  | e :: es =>
      if e.sleep_start < e.sleep_end then
        (if 0 < last ∧ last < e.sleep_end then 1 else 0)
          + intervalCountFrom e.sleep_end es
      else intervalCountFrom last es

lemma countSleep_le_length (es : List Sleeptime) : countSleep es ≤ es.length := by
  induction es with
  | nil => simp [countSleep]
  | cons e es ih =>
      simp only [countSleep, List.length_cons]
      split <;> omega

lemma intervalCountFrom_le_length (es : List Sleeptime) :
    ∀ last : Nat, intervalCountFrom last es ≤ es.length := by
  induction es with
  | nil => intro last; simp [intervalCountFrom]
  | cons e es ih =>
      intro last
      simp only [intervalCountFrom, List.length_cons]
      split
      · have := ih e.sleep_end
        split <;> omega
      · have := ih last
        omega

lemma observeAll_event_count (es : List Sleeptime) :
    ∀ s : TaskStats, s.event_count < U64LIM →
      (observeAll s es).event_count = (s.event_count + es.length) % U64LIM := by
  induction es with
  | nil =>
      intro s hs
      simpa [observeAll] using (Nat.mod_eq_of_lt hs).symm
  | cons e es ih =>
      intro s hs
      rw [observeAll_cons]
      have hstep : (s.observe e).event_count = (s.event_count + 1) % U64LIM :=
        update_event_count s _ _ _
      rw [ih _ (by rw [hstep]; exact Nat.mod_lt _ u64lim_pos)]
      rw [hstep, Nat.mod_add_mod, List.length_cons]
      congr 1
      omega

lemma observeAll_sleep_count (es : List Sleeptime) :
    ∀ s : TaskStats, s.sleep_count < U64LIM →
      (observeAll s es).sleep_count = (s.sleep_count + countSleep es) % U64LIM := by
  induction es with
  | nil =>
      intro s hs
      simpa [observeAll, countSleep] using (Nat.mod_eq_of_lt hs).symm
  | cons e es ih =>
      intro s hs
      rw [observeAll_cons]
      have hstep : (s.observe e).sleep_count =
          if 0 < sleepDur e then (s.sleep_count + 1) % U64LIM else s.sleep_count := by
        exact update_sleep_count s _ _ _
      by_cases hd : 0 < sleepDur e
      · rw [ih _ (by rw [hstep, if_pos hd]; exact Nat.mod_lt _ u64lim_pos)]
        rw [hstep, if_pos hd, Nat.mod_add_mod]
        have hcond : e.sleep_start < e.sleep_end := (sleepDur_pos_iff e).mp hd
        simp only [countSleep, if_pos hcond]
        congr 1
        omega
      · rw [ih _ (by rw [hstep, if_neg hd]; exact hs)]
        rw [hstep, if_neg hd]
        have hcond : ¬ e.sleep_start < e.sleep_end := fun h =>
          hd ((sleepDur_pos_iff e).mpr h)
        simp only [countSleep, if_neg hcond, Nat.zero_add]

lemma observeAll_last_sleep_end (es : List Sleeptime) :
    ∀ s : TaskStats,
      (observeAll s es).last_sleep_end =
        es.foldl (fun last e =>
          if e.sleep_start < e.sleep_end then e.sleep_end else last)
          s.last_sleep_end := by
  induction es with
  | nil => intro s; rfl
  | cons e es ih =>
      intro s
      rw [observeAll_cons, ih, List.foldl_cons]
      have hlast : (s.observe e).last_sleep_end =
          if 0 < sleepDur e then e.sleep_end else s.last_sleep_end :=
        update_last_sleep_end s _ _ _
      congr 1
      rw [hlast]
      by_cases hd : 0 < sleepDur e
      · rw [if_pos hd, if_pos ((sleepDur_pos_iff e).mp hd)]
      · rw [if_neg hd, if_neg (fun h => hd ((sleepDur_pos_iff e).mpr h))]

lemma observeAll_interval_count (es : List Sleeptime) :
    ∀ s : TaskStats, s.sleep_interval_count < U64LIM →
      (observeAll s es).sleep_interval_count =
        (s.sleep_interval_count + intervalCountFrom s.last_sleep_end es) % U64LIM := by
  induction es with
  | nil =>
      intro s hs
      simpa [observeAll, intervalCountFrom] using (Nat.mod_eq_of_lt hs).symm
  | cons e es ih =>
      intro s hs
      rw [observeAll_cons]
      have hcount : (s.observe e).sleep_interval_count =
          if intervalTrigger s (sleepDur e) e.sleep_end then
            (s.sleep_interval_count + 1) % U64LIM
          else s.sleep_interval_count := update_interval_count s _ _ _
      have hlast : (s.observe e).last_sleep_end =
          if 0 < sleepDur e then e.sleep_end else s.last_sleep_end :=
        update_last_sleep_end s _ _ _
      by_cases hd : 0 < sleepDur e
      · have hcond : e.sleep_start < e.sleep_end := (sleepDur_pos_iff e).mp hd
        by_cases htr : 0 < s.last_sleep_end ∧ s.last_sleep_end < e.sleep_end
        · have htrig : intervalTrigger s (sleepDur e) e.sleep_end := ⟨hd, htr.1, htr.2⟩
          rw [ih _ (by rw [hcount, if_pos htrig]; exact Nat.mod_lt _ u64lim_pos)]
          rw [hcount, if_pos htrig, hlast, if_pos hd, Nat.mod_add_mod]
          simp only [intervalCountFrom, if_pos hcond, if_pos htr]
          congr 1
          omega
        · have htrig : ¬ intervalTrigger s (sleepDur e) e.sleep_end := fun h =>
            htr ⟨h.2.1, h.2.2⟩
          rw [ih _ (by rw [hcount, if_neg htrig]; exact hs)]
          rw [hcount, if_neg htrig, hlast, if_pos hd]
          simp only [intervalCountFrom, if_pos hcond, if_neg htr, Nat.zero_add]
      · have hcond : ¬ e.sleep_start < e.sleep_end := fun h =>
          hd ((sleepDur_pos_iff e).mpr h)
        have htrig : ¬ intervalTrigger s (sleepDur e) e.sleep_end := fun h => hd h.1
        rw [ih _ (by rw [hcount, if_neg htrig]; exact hs)]
        rw [hcount, if_neg htrig, hlast, if_neg hd]
        simp only [intervalCountFrom, if_neg hcond]

/-- Claim C1: over any sequence of observe calls on one accumulator,
event_count equals the number of calls, sleep_count equals the number
of calls with sleep_end greater than sleep_start, and
sleep_interval_count equals the number of calls that additionally saw a
positive last_sleep_end strictly below the new sleep_end at call time.
Stated for sequences short enough that the u64 counters do not wrap. -/
theorem accumulator_counts (es : List Sleeptime) (h : es.length < U64LIM) :
    (observeAll TaskStats.new es).event_count = es.length ∧
    (observeAll TaskStats.new es).sleep_count = countSleep es ∧
    (observeAll TaskStats.new es).sleep_interval_count = intervalCountFrom 0 es := by
  have hnew0 : TaskStats.new.event_count = 0 := rfl
  have h1 := observeAll_event_count es TaskStats.new (by rw [hnew0]; exact u64lim_pos)
  have h2 := observeAll_sleep_count es TaskStats.new u64lim_pos
  have h3 := observeAll_interval_count es TaskStats.new u64lim_pos
  refine ⟨?_, ?_, ?_⟩
  · rw [h1, hnew0, Nat.zero_add, Nat.mod_eq_of_lt h]
  · rw [h2]
    show (0 + countSleep es) % U64LIM = _
    rw [Nat.zero_add,
      Nat.mod_eq_of_lt (lt_of_le_of_lt (countSleep_le_length es) h)]
  · rw [h3]
    have hl0 : TaskStats.new.last_sleep_end = 0 := rfl
    have hc0 : TaskStats.new.sleep_interval_count = 0 := rfl
    rw [hl0, hc0, Nat.zero_add,
      Nat.mod_eq_of_lt (lt_of_le_of_lt (intervalCountFrom_le_length es 0) h)]

/-- Witness for claim C1 at a concrete three-event sequence: the second
event sleeps (2000 up from 1200) after a first sleep ended at 1000, the
third shows no sleep. -/
theorem accumulator_counts_witness :
    ([⟨1, 5, 1000, 10⟩, ⟨1, 1200, 2000, 20⟩, ⟨1, 9, 3, 4⟩] : List Sleeptime).length
        < U64LIM ∧
    ((observeAll TaskStats.new
        [⟨1, 5, 1000, 10⟩, ⟨1, 1200, 2000, 20⟩, ⟨1, 9, 3, 4⟩]).event_count
      = ([⟨1, 5, 1000, 10⟩, ⟨1, 1200, 2000, 20⟩, ⟨1, 9, 3, 4⟩] : List Sleeptime).length ∧
    (observeAll TaskStats.new
        [⟨1, 5, 1000, 10⟩, ⟨1, 1200, 2000, 20⟩, ⟨1, 9, 3, 4⟩]).sleep_count
      = countSleep [⟨1, 5, 1000, 10⟩, ⟨1, 1200, 2000, 20⟩, ⟨1, 9, 3, 4⟩] ∧
    (observeAll TaskStats.new
        [⟨1, 5, 1000, 10⟩, ⟨1, 1200, 2000, 20⟩, ⟨1, 9, 3, 4⟩]).sleep_interval_count
      = intervalCountFrom 0 [⟨1, 5, 1000, 10⟩, ⟨1, 1200, 2000, 20⟩, ⟨1, 9, 3, 4⟩]) :=
  ⟨by decide,
   accumulator_counts [⟨1, 5, 1000, 10⟩, ⟨1, 1200, 2000, 20⟩, ⟨1, 9, 3, 4⟩] (by decide)⟩

/-! Recorded samples of each quantity accumulator (claim C3). -/

/-- Values recorded into the runtime accumulator: one per call. -/
def runtimeSamples (es : List Sleeptime) : List Nat :=
  es.map (fun e => e.runtime_ns)

/-- Values recorded into the sleep-duration accumulator. -/
def sleepSamples : List Sleeptime → List Nat
  | [] => []
  | e :: es =>
      if e.sleep_start < e.sleep_end then sleepDur e :: sleepSamples es
      else sleepSamples es

/-- Values recorded into the sleep-interval accumulator, threading the
last_sleep_end value visible at each call. -/
def intervalSamplesFrom (last : Nat) : List Sleeptime → List Nat
  | [] => []
  | e :: es =>
      if e.sleep_start < e.sleep_end then
        (if 0 < last ∧ last < e.sleep_end then [e.sleep_end - last] else [])
          ++ intervalSamplesFrom e.sleep_end es
      else intervalSamplesFrom last es

lemma length_sleepSamples (es : List Sleeptime) :
    (sleepSamples es).length = countSleep es := by
  induction es with
  | nil => rfl
  | cons e es ih =>
      simp only [sleepSamples, countSleep]
      split
      · simp [ih]
        omega
      · simp [ih]

lemma length_intervalSamplesFrom (es : List Sleeptime) :
    ∀ last : Nat, (intervalSamplesFrom last es).length = intervalCountFrom last es := by
  induction es with
  | nil => intro last; rfl
  | cons e es ih =>
      intro last
      simp only [intervalSamplesFrom, intervalCountFrom]
      split
      · split
        · simp [ih]
          omega
        · simp [ih]
      · exact ih last

/-! Monotonicity of the min and max fields along a fold. -/

lemma observeAll_runtime_min_le (es : List Sleeptime) :
    ∀ s : TaskStats, (observeAll s es).runtime_min ≤ s.runtime_min := by
  induction es with
  | nil => intro s; exact le_refl _
  | cons e es ih =>
      intro s
      rw [observeAll_cons]
      refine le_trans (ih _) ?_
      have hstep : (s.observe e).runtime_min = min s.runtime_min e.runtime_ns :=
        update_runtime_min s _ _ _
      rw [hstep]
      exact min_le_left _ _

lemma observeAll_runtime_max_ge (es : List Sleeptime) :
    ∀ s : TaskStats, s.runtime_max ≤ (observeAll s es).runtime_max := by
  induction es with
  | nil => intro s; exact le_refl _
  | cons e es ih =>
      intro s
      rw [observeAll_cons]
      refine le_trans ?_ (ih _)
      have hstep : (s.observe e).runtime_max = max s.runtime_max e.runtime_ns :=
        update_runtime_max s _ _ _
      rw [hstep]
      exact le_max_left _ _

lemma observeAll_sleep_min_le (es : List Sleeptime) :
    ∀ s : TaskStats, (observeAll s es).sleep_min ≤ s.sleep_min := by
  induction es with
  | nil => intro s; exact le_refl _
  | cons e es ih =>
      intro s
      rw [observeAll_cons]
      refine le_trans (ih _) ?_
      have hstep : (s.observe e).sleep_min =
          if 0 < sleepDur e then min s.sleep_min (sleepDur e) else s.sleep_min :=
        update_sleep_min s _ _ _
      rw [hstep]
      split
      · exact min_le_left _ _
      · exact le_refl _

lemma observeAll_sleep_max_ge (es : List Sleeptime) :
    ∀ s : TaskStats, s.sleep_max ≤ (observeAll s es).sleep_max := by
  induction es with
  | nil => intro s; exact le_refl _
  | cons e es ih =>
      intro s
      rw [observeAll_cons]
      refine le_trans ?_ (ih _)
      have hstep : (s.observe e).sleep_max =
          if 0 < sleepDur e then max s.sleep_max (sleepDur e) else s.sleep_max :=
        update_sleep_max s _ _ _
      rw [hstep]
      split
      · exact le_max_left _ _
      · exact le_refl _

lemma observeAll_interval_min_le (es : List Sleeptime) :
    ∀ s : TaskStats, (observeAll s es).sleep_interval_min ≤ s.sleep_interval_min := by
  induction es with
  | nil => intro s; exact le_refl _
  | cons e es ih =>
      intro s
      rw [observeAll_cons]
      refine le_trans (ih _) ?_
      have hstep : (s.observe e).sleep_interval_min =
          if intervalTrigger s (sleepDur e) e.sleep_end then
            min s.sleep_interval_min (e.sleep_end - s.last_sleep_end)
          else s.sleep_interval_min :=
        update_interval_min s _ _ _
      rw [hstep]
      split
      · exact min_le_left _ _
      · exact le_refl _

lemma observeAll_interval_max_ge (es : List Sleeptime) :
    ∀ s : TaskStats, s.sleep_interval_max ≤ (observeAll s es).sleep_interval_max := by
  induction es with
  | nil => intro s; exact le_refl _
  | cons e es ih =>
      intro s
      rw [observeAll_cons]
      refine le_trans ?_ (ih _)
      have hstep : (s.observe e).sleep_interval_max =
          if intervalTrigger s (sleepDur e) e.sleep_end then
            max s.sleep_interval_max (e.sleep_end - s.last_sleep_end)
          else s.sleep_interval_max :=
        update_interval_max s _ _ _
      rw [hstep]
      split
      · exact le_max_left _ _
      · exact le_refl _

/-! Every recorded sample is bracketed by the final min and max. -/

lemma runtimeSamples_bounds (es : List Sleeptime) :
    ∀ s : TaskStats, ∀ v ∈ runtimeSamples es,
      (observeAll s es).runtime_min ≤ v ∧ v ≤ (observeAll s es).runtime_max := by
  induction es with
  | nil => intro s v hv; simp [runtimeSamples] at hv
  | cons e es ih =>
      intro s v hv
      rw [runtimeSamples, List.map_cons] at hv
      rw [observeAll_cons]
      rcases List.mem_cons.mp hv with hv | hv
      · subst hv
        have hmin : (s.observe e).runtime_min = min s.runtime_min e.runtime_ns :=
          update_runtime_min s _ _ _
        have hmax : (s.observe e).runtime_max = max s.runtime_max e.runtime_ns :=
          update_runtime_max s _ _ _
        constructor
        · exact le_trans (observeAll_runtime_min_le es _)
            (by rw [hmin]; exact min_le_right _ _)
        · exact le_trans (by rw [hmax]; exact le_max_right _ _)
            (observeAll_runtime_max_ge es _)
      · exact ih _ v hv

lemma sleepSamples_bounds (es : List Sleeptime) :
    ∀ s : TaskStats, ∀ v ∈ sleepSamples es,
      (observeAll s es).sleep_min ≤ v ∧ v ≤ (observeAll s es).sleep_max := by
  induction es with
  | nil => intro s v hv; simp [sleepSamples] at hv
  | cons e es ih =>
      intro s v hv
      rw [observeAll_cons]
      rw [sleepSamples] at hv
      by_cases hc : e.sleep_start < e.sleep_end
      · rw [if_pos hc] at hv
        have hd : 0 < sleepDur e := (sleepDur_pos_iff e).mpr hc
        rcases List.mem_cons.mp hv with hv | hv
        · subst hv
          have hmin : (s.observe e).sleep_min =
              if 0 < sleepDur e then min s.sleep_min (sleepDur e) else s.sleep_min :=
            update_sleep_min s _ _ _
          have hmax : (s.observe e).sleep_max =
              if 0 < sleepDur e then max s.sleep_max (sleepDur e) else s.sleep_max :=
            update_sleep_max s _ _ _
          constructor
          · exact le_trans (observeAll_sleep_min_le es _)
              (by rw [hmin, if_pos hd]; exact min_le_right _ _)
          · exact le_trans (by rw [hmax, if_pos hd]; exact le_max_right _ _)
              (observeAll_sleep_max_ge es _)
        · exact ih _ v hv
      · rw [if_neg hc] at hv
        exact ih _ v hv

lemma intervalSamples_bounds (es : List Sleeptime) :
    ∀ s : TaskStats, ∀ v ∈ intervalSamplesFrom s.last_sleep_end es,
      (observeAll s es).sleep_interval_min ≤ v ∧
        v ≤ (observeAll s es).sleep_interval_max := by
  induction es with
  | nil => intro s v hv; simp [intervalSamplesFrom] at hv
  | cons e es ih =>
      intro s v hv
      rw [observeAll_cons]
      rw [intervalSamplesFrom] at hv
      have hlast : (s.observe e).last_sleep_end =
          if 0 < sleepDur e then e.sleep_end else s.last_sleep_end :=
        update_last_sleep_end s _ _ _
      by_cases hc : e.sleep_start < e.sleep_end
      · rw [if_pos hc] at hv
        have hd : 0 < sleepDur e := (sleepDur_pos_iff e).mpr hc
        have htail : intervalSamplesFrom e.sleep_end es =
            intervalSamplesFrom (s.observe e).last_sleep_end es := by
          rw [hlast, if_pos hd]
        rcases List.mem_append.mp hv with hv | hv
        · by_cases htr : 0 < s.last_sleep_end ∧ s.last_sleep_end < e.sleep_end
          · rw [if_pos htr] at hv
            have hveq : v = e.sleep_end - s.last_sleep_end := by
              simpa using hv
            subst hveq
            have htrig : intervalTrigger s (sleepDur e) e.sleep_end :=
              ⟨hd, htr.1, htr.2⟩
            have hmin : (s.observe e).sleep_interval_min =
                if intervalTrigger s (sleepDur e) e.sleep_end then
                  min s.sleep_interval_min (e.sleep_end - s.last_sleep_end)
                else s.sleep_interval_min :=
              update_interval_min s _ _ _
            have hmax : (s.observe e).sleep_interval_max =
                if intervalTrigger s (sleepDur e) e.sleep_end then
                  max s.sleep_interval_max (e.sleep_end - s.last_sleep_end)
                else s.sleep_interval_max :=
              update_interval_max s _ _ _
            constructor
            · exact le_trans (observeAll_interval_min_le es _)
                (by rw [hmin, if_pos htrig]; exact min_le_right _ _)
            · exact le_trans (by rw [hmax, if_pos htrig]; exact le_max_right _ _)
                (observeAll_interval_max_ge es _)
          · rw [if_neg htr] at hv
            simp at hv
        · rw [htail] at hv
          exact ih _ v hv
      · rw [if_neg hc] at hv
        have htail : intervalSamplesFrom s.last_sleep_end es =
            intervalSamplesFrom (s.observe e).last_sleep_end es := by
          rw [hlast, if_neg (fun h => hc ((sleepDur_pos_iff e).mp h))]
        rw [htail] at hv
        exact ih _ v hv

/-- Claim C3: after any sequence of observe calls from a fresh
accumulator, every value recorded into a quantity accumulator lies
between the min and max of that accumulator, min does not exceed max
once the count of that accumulator is positive, and the sleep and sleep-interval
counts never exceed event_count. -/
theorem accumulator_min_max_invariants (es : List Sleeptime) (h : es.length < U64LIM) :
    (∀ v ∈ runtimeSamples es,
        (observeAll TaskStats.new es).runtime_min ≤ v ∧
          v ≤ (observeAll TaskStats.new es).runtime_max) ∧
    (∀ v ∈ sleepSamples es,
        (observeAll TaskStats.new es).sleep_min ≤ v ∧
          v ≤ (observeAll TaskStats.new es).sleep_max) ∧
    (∀ v ∈ intervalSamplesFrom 0 es,
        (observeAll TaskStats.new es).sleep_interval_min ≤ v ∧
          v ≤ (observeAll TaskStats.new es).sleep_interval_max) ∧
    (0 < (observeAll TaskStats.new es).event_count →
        (observeAll TaskStats.new es).runtime_min ≤
          (observeAll TaskStats.new es).runtime_max) ∧
    (0 < (observeAll TaskStats.new es).sleep_count →
        (observeAll TaskStats.new es).sleep_min ≤
          (observeAll TaskStats.new es).sleep_max) ∧
    (0 < (observeAll TaskStats.new es).sleep_interval_count →
        (observeAll TaskStats.new es).sleep_interval_min ≤
          (observeAll TaskStats.new es).sleep_interval_max) ∧
    (observeAll TaskStats.new es).sleep_count ≤
      (observeAll TaskStats.new es).event_count ∧
    (observeAll TaskStats.new es).sleep_interval_count ≤
      (observeAll TaskStats.new es).event_count := by
  obtain ⟨hev, hsc, hic⟩ := accumulator_counts es h
  have hint0 : intervalSamplesFrom 0 es =
      intervalSamplesFrom TaskStats.new.last_sleep_end es := rfl
  refine ⟨runtimeSamples_bounds es TaskStats.new,
    sleepSamples_bounds es TaskStats.new,
    ?_, ?_, ?_, ?_, ?_, ?_⟩
  · rw [hint0]
    exact intervalSamples_bounds es TaskStats.new
  · intro hpos
    rw [hev] at hpos
    have : runtimeSamples es ≠ [] := by
      have : 0 < (runtimeSamples es).length := by
        rw [runtimeSamples, List.length_map]; exact hpos
      exact List.length_pos.mp this
    obtain ⟨v, hv⟩ := List.exists_mem_of_ne_nil _ this
    obtain ⟨h1, h2⟩ := runtimeSamples_bounds es TaskStats.new v hv
    exact le_trans h1 h2
  · intro hpos
    rw [hsc] at hpos
    have : sleepSamples es ≠ [] := by
      have : 0 < (sleepSamples es).length := by
        rw [length_sleepSamples]; exact hpos
      exact List.length_pos.mp this
    obtain ⟨v, hv⟩ := List.exists_mem_of_ne_nil _ this
    obtain ⟨h1, h2⟩ := sleepSamples_bounds es TaskStats.new v hv
    exact le_trans h1 h2
  · intro hpos
    rw [hic] at hpos
    have : intervalSamplesFrom 0 es ≠ [] := by
      have : 0 < (intervalSamplesFrom 0 es).length := by
        rw [length_intervalSamplesFrom]; exact hpos
      exact List.length_pos.mp this
    obtain ⟨v, hv⟩ := List.exists_mem_of_ne_nil _ this
    rw [hint0] at hv
    obtain ⟨h1, h2⟩ := intervalSamples_bounds es TaskStats.new v hv
    exact le_trans h1 h2
  · rw [hev, hsc]
    exact countSleep_le_length es
  · rw [hev, hic]
    exact intervalCountFrom_le_length es 0

/-- Witness for claim C3: the sleep count never exceeds the event count
on a concrete two-event sequence. -/
theorem accumulator_min_max_invariants_witness :
    (observeAll TaskStats.new [⟨2, 10, 400, 6⟩, ⟨2, 450, 440, 8⟩]).sleep_count ≤
      (observeAll TaskStats.new [⟨2, 10, 400, 6⟩, ⟨2, 450, 440, 8⟩]).event_count :=
  (accumulator_min_max_invariants [⟨2, 10, 400, 6⟩, ⟨2, 450, 440, 8⟩]
    (by decide)).2.2.2.2.2.2.1

/-- Claim C5: from a fresh accumulator, two sequential observe calls
with positive sleep durations ending at 1000 and then 1500 record
exactly one sleep-interval sample whose value is 500. -/
theorem sleep_interval_sample_500 (e1 e2 : Sleeptime)
    (h1 : 0 < sleepDur e1) (h2 : 0 < sleepDur e2)
    (he1 : e1.sleep_end = 1000) (he2 : e2.sleep_end = 1500) :
    (observeAll TaskStats.new [e1, e2]).sleep_interval_count = 1 ∧
    intervalSamplesFrom 0 [e1, e2] = [500] ∧
    (observeAll TaskStats.new [e1, e2]).sleep_interval_sum = 500 ∧
    (observeAll TaskStats.new [e1, e2]).sleep_interval_min = 500 ∧
    (observeAll TaskStats.new [e1, e2]).sleep_interval_max = 500 := by
  have hc1 : e1.sleep_start < e1.sleep_end := (sleepDur_pos_iff e1).mp h1
  have hc2 : e2.sleep_start < e2.sleep_end := (sleepDur_pos_iff e2).mp h2
  have hobs : observeAll TaskStats.new [e1, e2] =
      (TaskStats.new.observe e1).observe e2 := rfl
  have hlast1 : (TaskStats.new.observe e1).last_sleep_end = 1000 := by
    have h : (TaskStats.new.observe e1).last_sleep_end =
        if 0 < sleepDur e1 then e1.sleep_end else TaskStats.new.last_sleep_end :=
      update_last_sleep_end TaskStats.new _ _ _
    rw [h, if_pos h1, he1]
  have htr1 : ¬ intervalTrigger TaskStats.new (sleepDur e1) e1.sleep_end :=
    fun hx => Nat.lt_irrefl 0 hx.2.1
  have hic1 : (TaskStats.new.observe e1).sleep_interval_count = 0 := by
    have h : (TaskStats.new.observe e1).sleep_interval_count =
        if intervalTrigger TaskStats.new (sleepDur e1) e1.sleep_end then
          (TaskStats.new.sleep_interval_count + 1) % U64LIM
        else TaskStats.new.sleep_interval_count :=
      update_interval_count TaskStats.new _ _ _
    rw [h, if_neg htr1]
    rfl
  have his1 : (TaskStats.new.observe e1).sleep_interval_sum = 0 := by
    have h : (TaskStats.new.observe e1).sleep_interval_sum =
        if intervalTrigger TaskStats.new (sleepDur e1) e1.sleep_end then
          (TaskStats.new.sleep_interval_sum +
            (e1.sleep_end - TaskStats.new.last_sleep_end)) % U64LIM
        else TaskStats.new.sleep_interval_sum :=
      update_interval_sum TaskStats.new _ _ _
    rw [h, if_neg htr1]
    rfl
  have himin1 : (TaskStats.new.observe e1).sleep_interval_min = U64MAX := by
    have h : (TaskStats.new.observe e1).sleep_interval_min =
        if intervalTrigger TaskStats.new (sleepDur e1) e1.sleep_end then
          min TaskStats.new.sleep_interval_min
            (e1.sleep_end - TaskStats.new.last_sleep_end)
        else TaskStats.new.sleep_interval_min :=
      update_interval_min TaskStats.new _ _ _
    rw [h, if_neg htr1]
    rfl
  have himax1 : (TaskStats.new.observe e1).sleep_interval_max = 0 := by
    have h : (TaskStats.new.observe e1).sleep_interval_max =
        if intervalTrigger TaskStats.new (sleepDur e1) e1.sleep_end then
          max TaskStats.new.sleep_interval_max
            (e1.sleep_end - TaskStats.new.last_sleep_end)
        else TaskStats.new.sleep_interval_max :=
      update_interval_max TaskStats.new _ _ _
    rw [h, if_neg htr1]
    rfl
  have htr2 : intervalTrigger (TaskStats.new.observe e1) (sleepDur e2) e2.sleep_end := by
    refine ⟨h2, ?_, ?_⟩
    · rw [hlast1]; norm_num
    · rw [hlast1, he2]; norm_num
  have hdiff : e2.sleep_end - (TaskStats.new.observe e1).last_sleep_end = 500 := by
    rw [hlast1, he2]
  refine ⟨?_, ?_, ?_, ?_, ?_⟩
  · have h : ((TaskStats.new.observe e1).observe e2).sleep_interval_count =
        if intervalTrigger (TaskStats.new.observe e1) (sleepDur e2) e2.sleep_end then
          ((TaskStats.new.observe e1).sleep_interval_count + 1) % U64LIM
        else (TaskStats.new.observe e1).sleep_interval_count :=
      update_interval_count _ _ _ _
    rw [hobs, h, if_pos htr2, hic1]
    exact Nat.mod_eq_of_lt one_lt_u64lim
  · simp only [intervalSamplesFrom, if_pos hc1, if_pos hc2]
    rw [if_neg (fun hx => Nat.lt_irrefl 0 hx.1), List.nil_append, he1]
    rw [if_pos (⟨by norm_num, by rw [he2]; norm_num⟩ :
      0 < 1000 ∧ 1000 < e2.sleep_end)]
    rw [he2]
    rfl
  · have h : ((TaskStats.new.observe e1).observe e2).sleep_interval_sum =
        if intervalTrigger (TaskStats.new.observe e1) (sleepDur e2) e2.sleep_end then
          ((TaskStats.new.observe e1).sleep_interval_sum +
            (e2.sleep_end - (TaskStats.new.observe e1).last_sleep_end)) % U64LIM
        else (TaskStats.new.observe e1).sleep_interval_sum :=
      update_interval_sum _ _ _ _
    rw [hobs, h, if_pos htr2, his1, hdiff]
    exact Nat.mod_eq_of_lt (by norm_num [U64LIM])
  · have h : ((TaskStats.new.observe e1).observe e2).sleep_interval_min =
        if intervalTrigger (TaskStats.new.observe e1) (sleepDur e2) e2.sleep_end then
          min (TaskStats.new.observe e1).sleep_interval_min
            (e2.sleep_end - (TaskStats.new.observe e1).last_sleep_end)
        else (TaskStats.new.observe e1).sleep_interval_min :=
      update_interval_min _ _ _ _
    rw [hobs, h, if_pos htr2, himin1, hdiff]
    exact min_eq_right (by norm_num [U64MAX, U64LIM])
  · have h : ((TaskStats.new.observe e1).observe e2).sleep_interval_max =
        if intervalTrigger (TaskStats.new.observe e1) (sleepDur e2) e2.sleep_end then
          max (TaskStats.new.observe e1).sleep_interval_max
            (e2.sleep_end - (TaskStats.new.observe e1).last_sleep_end)
        else (TaskStats.new.observe e1).sleep_interval_max :=
      update_interval_max _ _ _ _
    rw [hobs, h, if_pos htr2, himax1, hdiff]
    exact max_eq_right (Nat.zero_le _)

/-- Witness for claim C5 at concrete records: sleeps 5 through 1000 and
1100 through 1500. -/
theorem sleep_interval_sample_500_witness :
    (observeAll TaskStats.new
        [⟨3, 5, 1000, 11⟩, ⟨3, 1100, 1500, 12⟩]).sleep_interval_count = 1 ∧
    intervalSamplesFrom 0 [⟨3, 5, 1000, 11⟩, ⟨3, 1100, 1500, 12⟩] = [500] ∧
    (observeAll TaskStats.new
        [⟨3, 5, 1000, 11⟩, ⟨3, 1100, 1500, 12⟩]).sleep_interval_sum = 500 ∧
    (observeAll TaskStats.new
        [⟨3, 5, 1000, 11⟩, ⟨3, 1100, 1500, 12⟩]).sleep_interval_min = 500 ∧
    (observeAll TaskStats.new
        [⟨3, 5, 1000, 11⟩, ⟨3, 1100, 1500, 12⟩]).sleep_interval_max = 500 :=
  sleep_interval_sample_500 ⟨3, 5, 1000, 11⟩ ⟨3, 1100, 1500, 12⟩
    (by decide) (by decide) rfl rfl

/-- Well-formed accumulator: every u64 field is in u64 range. The
model of update is a total function, so this is the residual content of
absence of failure: arbitrary u64 inputs applied to any representable
state yield a representable state, with no error case. -/
def TaskStats.wf (s : TaskStats) : Prop :=
  s.runtime_sum < U64LIM ∧ s.runtime_min < U64LIM ∧ s.runtime_max < U64LIM ∧
  s.sleep_sum < U64LIM ∧ s.sleep_min < U64LIM ∧ s.sleep_max < U64LIM ∧
  s.sleep_count < U64LIM ∧ s.last_sleep_end < U64LIM ∧
  s.sleep_interval_sum < U64LIM ∧ s.sleep_interval_min < U64LIM ∧
  s.sleep_interval_max < U64LIM ∧ s.sleep_interval_count < U64LIM ∧
  s.event_count < U64LIM

instance (s : TaskStats) : Decidable s.wf := by
  unfold TaskStats.wf
  infer_instance

lemma update_runtime_sum (s : TaskStats) (r d se : Nat) :
    (s.update r d se).runtime_sum = (s.runtime_sum + r) % U64LIM := by
  simp only [TaskStats.update]
  split
  · split <;> rfl
  · rfl

lemma update_sleep_sum (s : TaskStats) (r d se : Nat) :
    (s.update r d se).sleep_sum =
      if 0 < d then (s.sleep_sum + d) % U64LIM else s.sleep_sum := by
  simp only [TaskStats.update]
  split <;> rename_i h
  · simp only [if_pos h]
    split <;> rfl
  · simp only [if_neg h]

/-- Claim C9: observe on a single accumulator has no failure mode. The
fresh state is well formed and update, a total function of the state
and arbitrary u64 inputs, preserves well-formedness; it touches no
state outside the accumulator it is applied to. -/
theorem update_total_wf :
    TaskStats.new.wf ∧
    ∀ (s : TaskStats) (r d se : Nat),
      s.wf → r < U64LIM → d < U64LIM → se < U64LIM → (s.update r d se).wf := by
  constructor
  · decide
  · intro s r d se hs hr hd hse
    obtain ⟨h1, h2, h3, h4, h5, h6, h7, h8, h9, h10, h11, h12, h13⟩ := hs
    refine ⟨?_, ?_, ?_, ?_, ?_, ?_, ?_, ?_, ?_, ?_, ?_, ?_, ?_⟩
    · rw [update_runtime_sum]; exact Nat.mod_lt _ u64lim_pos
    · rw [update_runtime_min]; exact lt_of_le_of_lt (min_le_left _ _) h2
    · rw [update_runtime_max]; exact max_lt h3 hr
    · rw [update_sleep_sum]
      split
      · exact Nat.mod_lt _ u64lim_pos
      · exact h4
    · rw [update_sleep_min]
      split
      · exact lt_of_le_of_lt (min_le_left _ _) h5
      · exact h5
    · rw [update_sleep_max]
      split
      · exact max_lt h6 hd
      · exact h6
    · rw [update_sleep_count]
      split
      · exact Nat.mod_lt _ u64lim_pos
      · exact h7
    · rw [update_last_sleep_end]
      split
      · exact hse
      · exact h8
    · rw [update_interval_sum]
      split
      · exact Nat.mod_lt _ u64lim_pos
      · exact h9
    · rw [update_interval_min]
      split
      · exact lt_of_le_of_lt (min_le_left _ _) h10
      · exact h10
    · rw [update_interval_max]
      split
      · exact max_lt h11 (lt_of_le_of_lt (Nat.sub_le _ _) hse)
      · exact h11
    · rw [update_interval_count]
      split
      · exact Nat.mod_lt _ u64lim_pos
      · exact h12
    · rw [update_event_count]; exact Nat.mod_lt _ u64lim_pos

/-- Witness for claim C9: one update on the fresh accumulator with
concrete in-range inputs yields a well-formed state. -/
theorem update_total_wf_witness : (TaskStats.new.update 5 3 100).wf :=
  update_total_wf.2 TaskStats.new 5 3 100 (by decide) (by decide) (by decide)
    (by decide)

/-! Statistics store: the HashMap from task id to TaskStats behind the
mutex, modelled as an association list with unique keys reachable from
the empty store. -/

/-- Statistics store state. -/
abbrev Store : Type := List (Int × TaskStats)

/-- Lookup of the accumulator of a task. -/
def storeLookup : Store → Int → Option TaskStats
  | [], _ => none
  | (t, ts) :: rest, tid => if t = tid then some ts else storeLookup rest tid

/-- The lookup-or-create-then-update step of process_event:
stats.entry(tid).or_insert_with(TaskStats::new) followed by update. -/
def storeObserve : Store → Int → Nat → Nat → Nat → Store
  | [], tid, r, d, se => [(tid, TaskStats.new.update r d se)]
  | (t, ts) :: rest, tid, r, d, se =>
      if t = tid then (t, ts.update r d se) :: rest
      else (t, ts) :: storeObserve rest tid r d se

/-- process_event on one decoded record. -/
def processEvent (st : Store) (e : Sleeptime) : Store :=
  storeObserve st e.tid e.runtime_ns (sleepDur e) e.sleep_end

/-- A whole session of decoded records, in order. -/
def processAll : Store → List Sleeptime → Store
  | st, [] => st
  | st, e :: es => processAll (processEvent st e) es

lemma storeLookup_observe_ne (st : Store) (tid : Int) (r d se : Nat) :
    ∀ t : Int, t ≠ tid → storeLookup (storeObserve st tid r d se) t = storeLookup st t := by
  induction st with
  | nil =>
      intro t ht
      simp only [storeObserve, storeLookup]
      rw [if_neg (fun h => ht h.symm)]
  | cons p rest ih =>
      intro t ht
      obtain ⟨t0, ts0⟩ := p
      simp only [storeObserve]
      by_cases h0 : t0 = tid
      · rw [if_pos h0]
        simp only [storeLookup]
        have hne : ¬ t0 = t := fun hh => ht (hh.symm.trans h0)
        rw [if_neg hne, if_neg hne]
      · rw [if_neg h0]
        simp only [storeLookup]
        by_cases h1 : t0 = t
        · rw [if_pos h1, if_pos h1]
        · rw [if_neg h1, if_neg h1]
          exact ih t ht

lemma storeLookup_observe_eq (st : Store) (tid : Int) (r d se : Nat) :
    storeLookup (storeObserve st tid r d se) tid =
      some (((storeLookup st tid).getD TaskStats.new).update r d se) := by
  induction st with
  | nil =>
      simp [storeObserve, storeLookup]
  | cons p rest ih =>
      obtain ⟨t0, ts0⟩ := p
      simp only [storeObserve]
      by_cases h0 : t0 = tid
      · rw [if_pos h0]
        simp only [storeLookup]
        rw [if_pos h0, if_pos h0]
        rfl
      · rw [if_neg h0]
        simp only [storeLookup]
        rw [if_neg h0, if_neg h0]
        exact ih

/-- Every entry of a store has event_count at least 1 and at most n. -/
def storeInv (n : Nat) (st : Store) : Prop :=
  ∀ p ∈ st, 1 ≤ p.2.event_count ∧ p.2.event_count ≤ n

lemma storeInv_nil (n : Nat) : storeInv n [] := by
  intro p hp
  exact absurd hp (List.not_mem_nil p)

lemma storeObserve_inv (tid : Int) (r d se : Nat) :
    ∀ (st : Store) (n : Nat), storeInv n st → n + 1 < U64LIM →
      storeInv (n + 1) (storeObserve st tid r d se) := by
  intro st
  induction st with
  | nil =>
      intro n _ hn
      intro p hp
      simp only [storeObserve, List.mem_singleton] at hp
      subst hp
      show 1 ≤ (TaskStats.new.update r d se).event_count ∧
        (TaskStats.new.update r d se).event_count ≤ n + 1
      have h : (TaskStats.new.update r d se).event_count =
          (TaskStats.new.event_count + 1) % U64LIM := update_event_count _ _ _ _
      have h0 : TaskStats.new.event_count = 0 := rfl
      rw [h, h0, Nat.zero_add, Nat.mod_eq_of_lt one_lt_u64lim]
      omega
  | cons p rest ih =>
      intro n hinv hn
      intro q hq
      obtain ⟨t0, ts0⟩ := p
      simp only [storeObserve] at hq
      by_cases h0 : t0 = tid
      · rw [if_pos h0] at hq
        rcases List.mem_cons.mp hq with hq | hq
        · subst hq
          show 1 ≤ (ts0.update r d se).event_count ∧
            (ts0.update r d se).event_count ≤ n + 1
          have h : (ts0.update r d se).event_count =
              (ts0.event_count + 1) % U64LIM := update_event_count _ _ _ _
          have hb : 1 ≤ ts0.event_count ∧ ts0.event_count ≤ n :=
            hinv (t0, ts0) (List.mem_cons_self _ _)
          rw [h, Nat.mod_eq_of_lt (by omega)]
          omega
        · have hb := hinv q (List.mem_cons_of_mem _ hq)
          omega
      · rw [if_neg h0] at hq
        rcases List.mem_cons.mp hq with hq | hq
        · subst hq
          have hb : 1 ≤ ts0.event_count ∧ ts0.event_count ≤ n :=
            hinv (t0, ts0) (List.mem_cons_self _ _)
          show 1 ≤ ts0.event_count ∧ ts0.event_count ≤ n + 1
          omega
        · exact ih n (fun x hx => hinv x (List.mem_cons_of_mem _ hx)) hn q hq

lemma processAll_inv (es : List Sleeptime) :
    ∀ (st : Store) (n : Nat), storeInv n st → n + es.length < U64LIM →
      storeInv (n + es.length) (processAll st es) := by
  induction es with
  | nil => intro st n hinv _; simpa [processAll] using hinv
  | cons e es ih =>
      intro st n hinv hn
      rw [List.length_cons] at hn
      rw [processAll]
      have hstep : storeInv (n + 1) (processEvent st e) := by
        rw [processEvent]
        exact storeObserve_inv _ _ _ _ st n hinv (by omega)
      have hres := ih (processEvent st e) (n + 1) hstep (by omega)
      have hlen : n + (e :: es).length = n + 1 + es.length := by
        rw [List.length_cons]
        omega
      rw [hlen]
      exact hres

lemma storeLookup_mem (st : Store) (t : Int) (s : TaskStats) :
    storeLookup st t = some s → (t, s) ∈ st := by
  induction st with
  | nil => intro hlook; simp [storeLookup] at hlook
  | cons p rest ih =>
      intro hlook
      obtain ⟨t0, ts0⟩ := p
      simp only [storeLookup] at hlook
      by_cases h0 : t0 = t
      · rw [if_pos h0] at hlook
        subst h0
        rw [Option.some_inj] at hlook
        subst hlook
        exact List.mem_cons_self _ _
      · rw [if_neg h0] at hlook
        exact List.mem_cons_of_mem _ (ih hlook)

/-- Claim C10: one observe call into the store mutates at most the entry
of the observed task id, creating it from a fresh accumulator on first
observation; every other entry reads unchanged, entries are never
removed, and after any sequence of events from an empty store every
entry present has event_count at least 1. -/
theorem store_observe_frame (st : Store) (ev : Sleeptime) (es : List Sleeptime)
    (h : es.length < U64LIM) :
    (∀ t : Int, t ≠ ev.tid →
        storeLookup (processEvent st ev) t = storeLookup st t) ∧
    storeLookup (processEvent st ev) ev.tid =
      some (((storeLookup st ev.tid).getD TaskStats.new).update
        ev.runtime_ns (sleepDur ev) ev.sleep_end) ∧
    (∀ t : Int, (storeLookup st t).isSome →
        (storeLookup (processEvent st ev) t).isSome) ∧
    (∀ (t : Int) (s : TaskStats),
        storeLookup (processAll [] es) t = some s → 1 ≤ s.event_count) := by
  refine ⟨?_, ?_, ?_, ?_⟩
  · intro t ht
    exact storeLookup_observe_ne st ev.tid _ _ _ t ht
  · exact storeLookup_observe_eq st ev.tid _ _ _
  · intro t hsome
    by_cases ht : t = ev.tid
    · subst ht
      rw [processEvent, storeLookup_observe_eq]
      rfl
    · rw [processEvent, storeLookup_observe_ne st ev.tid _ _ _ t ht]
      exact hsome
  · intro t s hlook
    have hinv : storeInv (0 + es.length) (processAll [] es) :=
      processAll_inv es [] 0 (storeInv_nil 0) (by omega)
    exact (hinv (t, s) (storeLookup_mem _ t s hlook)).1

/-- Witness for claim C10: after one event from the empty store, the
entry created for task 7 has event_count at least 1. -/
theorem store_observe_frame_witness : 1 ≤ (TaskStats.new.update 42 95 100).event_count :=
  (store_observe_frame [] ⟨7, 5, 100, 42⟩ [⟨7, 5, 100, 42⟩] (by decide)).2.2.2
    7 (TaskStats.new.update 42 95 100) rfl

/-! Target-resolution policy and startup (main in
src/tracer/src/main.rs). -/

/-- Trace modes, with the i32 discriminants used for bss target_mode. -/
inductive TraceMode where
  | tid
  | tgid
  deriving DecidableEq, Repr

/-- The i32 value stored into the BPF-side target_mode variable. -/
def TraceMode.toInt : TraceMode → Int
  | .tid => 0
  | .tgid => 1

/-- Startup error taxonomy relevant to the modelled prefix of main. -/
inductive ConfigError where
  | invalidMode (modeStr : String)
  deriving DecidableEq, Repr

/-- Mode-string parsing at the top of main: only tid and tgid are
accepted. -/
def parseMode (s : String) : Except ConfigError TraceMode :=
  if s = "tid" then .ok .tid
  else if s = "tgid" then .ok .tgid
  else .error (.invalidMode s)

/-- Configuration state written into the BPF skeleton: the three bss
scalars and the two tracked-id hash maps (key sets; values are the
constant 1). -/
structure SkelCfg where
  target_mode : Int
  target_single_tid : Int
  target_single_tgid : Int
  tracked_tids : Finset Int
  tracked_tgids : Finset Int
  deriving DecidableEq

/-- Freshly loaded skeleton: zeroed bss, empty maps. -/
def initCfg : SkelCfg where
  target_mode := 0
  target_single_tid := 0
  target_single_tgid := 0
  tracked_tids := ∅
  tracked_tgids := ∅

/-- Target-list resolution: an empty argument list falls back to the
own thread id of the caller (tid mode) or its process id (tgid mode). -/
def resolveTargets (mode : TraceMode) (argTargets : List Int)
    (callerTid callerPid : Int) : List Int :=
  if argTargets.isEmpty then
    match mode with
    | .tid => [callerTid]
    | .tgid => [callerPid]
  else argTargets

/-- Registering every target into a tracked-id map, one update call per
element, in list order. -/
def registerAll (table : Finset Int) (targets : List Int) : Finset Int :=
  targets.foldl (fun acc t => insert t acc) table

/-- Target configuration: single-target fast path writes the dedicated
bss field, otherwise each id is registered in the membership table. -/
def configureTargets (mode : TraceMode) (targets : List Int) (cfg : SkelCfg) : SkelCfg :=
  match mode with
  | .tid =>
      if targets.length = 1 then { cfg with target_single_tid := targets.headI }
      else { cfg with tracked_tids := registerAll cfg.tracked_tids targets }
  | .tgid =>
      if targets.length = 1 then { cfg with target_single_tgid := targets.headI }
      else { cfg with tracked_tgids := registerAll cfg.tracked_tgids targets }

/-- The whole target-resolution policy applied to a fresh skeleton:
set target_mode, resolve the target list, configure it. -/
def applyPolicy (mode : TraceMode) (argTargets : List Int)
    (callerTid callerPid : Int) : SkelCfg :=
  configureTargets mode (resolveTargets mode argTargets callerTid callerPid)
    { initCfg with target_mode := mode.toInt }

lemma registerAll_eq (targets : List Int) :
    ∀ table : Finset Int, registerAll table targets = table ∪ targets.toFinset := by
  induction targets with
  | nil => intro table; simp [registerAll]
  | cons t ts ih =>
      intro table
      rw [registerAll, List.foldl_cons]
      have h := ih (insert t table)
      rw [registerAll] at h
      rw [h, List.toFinset_cons, Finset.insert_union, Finset.union_insert]

/-- Claim C2: zero targets resolve to the id of the caller on the
single-target fast path; one target sets the dedicated single-target
field and leaves the membership table empty; two or more targets
register exactly the given ids in the membership table, insensitive to
order and duplicates. -/
theorem target_policy_resolution (mode : TraceMode) (ct cp : Int)
    (ts ts' : List Int) :
    (applyPolicy mode [] ct cp =
      (match mode with
       | .tid => { initCfg with target_mode := 0, target_single_tid := ct }
       | .tgid => { initCfg with target_mode := 1, target_single_tgid := cp })) ∧
    (∀ t : Int, applyPolicy mode [t] ct cp =
      (match mode with
       | .tid => { initCfg with target_mode := 0, target_single_tid := t }
       | .tgid => { initCfg with target_mode := 1, target_single_tgid := t })) ∧
    (2 ≤ ts.length → applyPolicy mode ts ct cp =
      (match mode with
       | .tid => { initCfg with target_mode := 0, tracked_tids := ts.toFinset }
       | .tgid => { initCfg with target_mode := 1, tracked_tgids := ts.toFinset })) ∧
    (ts.Perm ts' → applyPolicy mode ts ct cp = applyPolicy mode ts' ct cp) := by
  refine ⟨?_, ?_, ?_, ?_⟩
  · cases mode <;>
      simp [applyPolicy, resolveTargets, configureTargets, TraceMode.toInt]
  · intro t
    cases mode <;>
      simp [applyPolicy, resolveTargets, configureTargets, TraceMode.toInt]
  · intro hlen
    have hne : ¬ ts.isEmpty := by
      cases ts with
      | nil => simp at hlen
      | cons a l => simp
    have hlen1 : ¬ ts.length = 1 := by omega
    cases mode <;>
      simp [applyPolicy, resolveTargets, configureTargets, TraceMode.toInt,
        hne, hlen1, registerAll_eq, initCfg]
  · intro hperm
    by_cases hlen : 2 ≤ ts.length
    · have hlen' : 2 ≤ ts'.length := hperm.length_eq ▸ hlen
      have hne : ¬ ts.isEmpty := by
        cases ts with
        | nil => simp at hlen
        | cons a l => simp
      have hne' : ¬ ts'.isEmpty := by
        cases ts' with
        | nil => simp at hlen'
        | cons a l => simp
      have hlen1 : ¬ ts.length = 1 := by omega
      have hlen1' : ¬ ts'.length = 1 := by omega
      have hfin : ts.toFinset = ts'.toFinset := List.toFinset_eq_of_perm _ _ hperm
      cases mode <;>
        simp [applyPolicy, resolveTargets, configureTargets,
          hne, hne', hlen1, hlen1', registerAll_eq, hfin]
    · have heq : ts' = ts := by
        cases ts with
        | nil => exact hperm.symm.eq_nil
        | cons a l =>
            cases l with
            | nil => exact List.perm_singleton.mp hperm.symm
            | cons b m =>
                exfalso
                apply hlen
                rw [List.length_cons, List.length_cons]
                omega
      rw [heq]

/-- Witness for claim C2: targets 3, 1, 3 in tgid mode register exactly
the ids 3 and 1 in the tgid membership table. -/
theorem target_policy_resolution_witness :
    applyPolicy TraceMode.tgid [3, 1, 3] 7 9 =
      { initCfg with
        target_mode := 1
        tracked_tgids := ([3, 1, 3] : List Int).toFinset } :=
  (target_policy_resolution TraceMode.tgid 7 9 [3, 1, 3] [1, 3, 3]).2.2.1
    (by decide)

/-- Effects main performs on the instrumentation boundary during
startup, in program order. -/
inductive StartupEffect where
  | openBpf
  | loadBpf
  | setTargetMode (m : Int)
  | setSingleTid (t : Int)
  | setSingleTgid (t : Int)
  | insertTrackedTid (t : Int)
  | insertTrackedTgid (t : Int)
  | attachProgs
  deriving DecidableEq, Repr

/-- Per-target configuration effects, mirroring configureTargets. -/
def targetEffects (mode : TraceMode) (targets : List Int) : List StartupEffect :=
  match mode with
  | .tid =>
      if targets.length = 1 then [StartupEffect.setSingleTid targets.headI]
      else targets.map (fun t => StartupEffect.insertTrackedTid t)
  | .tgid =>
      if targets.length = 1 then [StartupEffect.setSingleTgid targets.headI]
      else targets.map (fun t => StartupEffect.insertTrackedTgid t)

/-- The startup prefix of main: parse the mode string first; only on
success open and load the BPF object, write the mode, configure the
targets and attach. On a parse failure main returns the error before
touching the skeleton, and the process exits non-zero. -/
def startupTrace (modeStr : String) (argTargets : List Int) (ct cp : Int) :
    List StartupEffect × Option SkelCfg :=
  match parseMode modeStr with
  | .error _ => ([], none)
  | .ok mode =>
      ([StartupEffect.openBpf, StartupEffect.loadBpf,
          StartupEffect.setTargetMode mode.toInt]
        ++ targetEffects mode (resolveTargets mode argTargets ct cp)
        ++ [StartupEffect.attachProgs],
       some (applyPolicy mode argTargets ct cp))

/-- Claim C7: a mode string other than tid and tgid fails with the
InvalidMode condition; startup performs no instrumentation effect at
all (no open, no load, no write) and produces no configuration, so main
propagates the error and the process exits non-zero. -/
theorem invalid_mode_fatal (m : String) (h1 : m ≠ "tid") (h2 : m ≠ "tgid")
    (argTargets : List Int) (ct cp : Int) :
    parseMode m = .error (ConfigError.invalidMode m) ∧
    startupTrace m argTargets ct cp = ([], none) := by
  have hp : parseMode m = .error (ConfigError.invalidMode m) := by
    rw [parseMode, if_neg h1, if_neg h2]
  refine ⟨hp, ?_⟩
  rw [startupTrace, hp]

/-- Witness for claim C7 at the concrete mode string foo. -/
theorem invalid_mode_fatal_witness :
    parseMode "foo" = .error (ConfigError.invalidMode "foo") ∧
    startupTrace "foo" [] 1 2 = ([], none) :=
  invalid_mode_fatal "foo" (by decide) (by decide) [] 1 2

/-! Session loop exit discipline (the polling loop of main). -/

/-- Terminal states of the session loop. -/
inductive ExitReason where
  | completed
  | cancelled
  deriving DecidableEq, Repr

/-- One session loop run over the successive (running flag, elapsed
time) observations of each iteration: the while condition reads the
cancellation flag; inside the body the timeout check fires only when
the configured duration is non-zero. -/
def sessionExit (durationSecs : Nat) : List (Bool × Nat) → Option ExitReason
  | [] => none
  | (running, elapsed) :: rest =>
      if running = false then some ExitReason.cancelled
      else if 0 < durationSecs ∧ durationSecs ≤ elapsed then
        some ExitReason.completed
      else sessionExit durationSecs rest

/-- Claim C6: with duration 0 the session never exits through the
elapsed-time condition: any exit is a cancellation, and one only
happens when the external flag was observed false. -/
theorem duration_zero_only_cancelled (tr : List (Bool × Nat)) (r : ExitReason)
    (h : sessionExit 0 tr = some r) :
    r = ExitReason.cancelled ∧ ∃ p ∈ tr, p.1 = false := by
  induction tr with
  | nil => simp [sessionExit] at h
  | cons p tr ih =>
      obtain ⟨running, elapsed⟩ := p
      rw [sessionExit] at h
      by_cases hr : running = false
      · rw [if_pos hr, Option.some_inj] at h
        exact ⟨h.symm, ⟨(running, elapsed), List.mem_cons_self _ _, hr⟩⟩
      · rw [if_neg hr, if_neg (fun hx => Nat.lt_irrefl 0 hx.1)] at h
        obtain ⟨hc, q, hq, hf⟩ := ih h
        exact ⟨hc, ⟨q, List.mem_cons_of_mem _ hq, hf⟩⟩

/-- Witness for claim C6: a trace whose second iteration sees the
cancellation flag. -/
theorem duration_zero_only_cancelled_witness :
    ExitReason.cancelled = ExitReason.cancelled ∧
    ∃ p ∈ ([(true, 99), (false, 3)] : List (Bool × Nat)), p.1 = false :=
  duration_zero_only_cancelled [(true, 99), (false, 3)] ExitReason.cancelled
    (by decide)

/-! Raw event decode: plain::from_bytes::<Sleeptime> inside
process_event. -/

/-- Little-endian value of a list of bytes. -/
def leNat (bs : List Nat) : Nat := bs.foldr (fun b acc => b + 256 * acc) 0

/-- Twos-complement i32 read from four little-endian bytes. -/
def i32OfLe (bs : List Nat) : Int :=
  let u := leNat bs
  if u < 2 ^ 31 then (u : Int) else (u : Int) - 2 ^ 32

/-- Size of the C layout of sleeptime_t: an i32 tid, four bytes of
alignment padding, then three u64 fields. -/
def SLEEPTIME_BYTES : Nat := 32

/-- Decode failure condition (MalformedRecord of the spec; TooShort in
the plain crate). -/
inductive DecodeError where
  | malformedRecord
  deriving DecidableEq, Repr

/-- Decode of a polled buffer, as plain::from_bytes::<Sleeptime>
behaves on byte contents: it rejects a buffer shorter than the record
and otherwise reinterprets the leading 32 bytes in native
little-endian order. The pointer-alignment check of the library has no
counterpart on byte lists and is not modelled. -/
def decodeSleeptime (data : List Nat) : Except DecodeError Sleeptime :=
  if data.length < SLEEPTIME_BYTES then .error .malformedRecord
  else .ok
    { tid := i32OfLe (data.take 4)
      sleep_start := leNat ((data.drop 8).take 8)
      sleep_end := leNat ((data.drop 16).take 8)
      runtime_ns := leNat ((data.drop 24).take 8) }

/-- Counterexample to claim C8 as stated: a 33-byte buffer does not
match the 32-byte record size, yet the decode succeeds, because the
underlying byte reinterpretation only rejects buffers that are too
short. -/
theorem decode_oversized_buffer_ok :
    (List.replicate 33 (0 : Nat)).length ≠ SLEEPTIME_BYTES ∧
    decodeSleeptime (List.replicate 33 (0 : Nat)) =
      .ok ⟨0, 0, 0, 0⟩ := by
  constructor
  · decide
  · rfl

/-- Claim C8 amended: the decode fails with MalformedRecord exactly
when the buffer is shorter than the 32-byte record size; with at least
32 bytes it succeeds and reads only the leading 32 bytes. -/
theorem decode_length_threshold (data : List Nat) :
    ((∃ r, decodeSleeptime data = .ok r) ↔ SLEEPTIME_BYTES ≤ data.length) ∧
    (SLEEPTIME_BYTES ≤ data.length →
      decodeSleeptime data = decodeSleeptime (data.take SLEEPTIME_BYTES)) ∧
    (data.length < SLEEPTIME_BYTES →
      decodeSleeptime data = .error DecodeError.malformedRecord) := by
  refine ⟨?_, ?_, ?_⟩
  · by_cases hlen : data.length < SLEEPTIME_BYTES
    · rw [decodeSleeptime, if_pos hlen]
      constructor
      · intro hx
        obtain ⟨r, hr⟩ := hx
        exact absurd hr (by simp)
      · intro hx
        exact absurd hx (by omega)
    · rw [decodeSleeptime, if_neg hlen]
      constructor
      · intro _
        omega
      · intro _
        exact ⟨_, rfl⟩
  · intro hle
    have hlen32 : (data.take SLEEPTIME_BYTES).length = SLEEPTIME_BYTES := by
      rw [List.length_take]
      omega
    rw [decodeSleeptime, decodeSleeptime, if_neg (by omega),
      if_neg (by rw [hlen32]; omega)]
    have ht4 : (data.take SLEEPTIME_BYTES).take 4 = data.take 4 := by
      rw [SLEEPTIME_BYTES, List.take_take]
      norm_num
    have hd8 : ((data.take SLEEPTIME_BYTES).drop 8).take 8 = (data.drop 8).take 8 := by
      rw [SLEEPTIME_BYTES, List.drop_take, List.take_take]
      norm_num
    have hd16 : ((data.take SLEEPTIME_BYTES).drop 16).take 8 = (data.drop 16).take 8 := by
      rw [SLEEPTIME_BYTES, List.drop_take, List.take_take]
      norm_num
    have hd24 : ((data.take SLEEPTIME_BYTES).drop 24).take 8 = (data.drop 24).take 8 := by
      rw [SLEEPTIME_BYTES, List.drop_take, List.take_take]
      norm_num
    rw [ht4, hd8, hd16, hd24]
  · intro hlen
    rw [decodeSleeptime, if_pos hlen]

/-- Witness for the amended claim C8: a 31-byte buffer is rejected as
malformed. -/
theorem decode_length_threshold_witness :
    decodeSleeptime (List.replicate 31 (0 : Nat)) =
      .error DecodeError.malformedRecord :=
  (decode_length_threshold (List.replicate 31 (0 : Nat))).2.2 (by decide)

end Tracer
